import Mathlib

/-!
Shallow embedding of the otelgrpcgw request-instrumentation middleware
(src/handler.go, src/time_ctx.go, src/util.go and the option/config file)
together with proofs of the specification claims about it.

Modelling conventions: wall-clock instants and durations are Int nanoseconds
(the zero time is 0); the Go context.Context chain is a list of entries with
the innermost (most recent) entry at the head, so value lookup finds the last
write first; the propagator capability is abstracted by the span context the
inbound headers carry; the body/response wrappers and the downstream
runtime.HandlerFunc are abstracted by an observable HandlerOutcome; elapsed
time, computed in Go as float64(duration) / float64(time.Millisecond), is an
exact rational.
-/

namespace Otelgrpcgw

/-- A trace/metric attribute key-value pair (attribute.KeyValue). -/
structure KeyValue where
  key : String
  value : String
deriving DecidableEq, Repr

/-- A distributed trace span context: validity and remoteness flags plus an
abstract identity (trace.SpanContext). -/
structure SpanContext where
  valid : Bool
  remote : Bool
  traceId : Nat
deriving DecidableEq, Repr

/-- The invalid (zero) span context, as returned when a context carries none. -/
def invalidSpanContext : SpanContext :=
  { valid := false, remote := false, traceId := 0 }

/-- One entry of a Go context chain (context.WithValue, trace.ContextWithSpan,
the propagator's remote-span-context installation, or an unrelated key).
The head of the list is the innermost, most recently added entry. -/
inductive CtxEntry where
  | startTimeKey (t : Int)
  | spanKey (sc : SpanContext) (provId : Nat)
  | labelerKey (entries : List KeyValue)
  | otherKey (k v : Nat)
deriving DecidableEq, Repr

/-- A Go context.Context, as the chain of values attached to it. -/
abbrev Context := List CtxEntry

/-- ContextWithStartTime (src/time_ctx.go): puts start into the context.
A second call shadows the first, since the newer entry sits closer to the
head of the chain (last write wins). -/
def ContextWithStartTime (parent : Context) (start : Int) : Context :=
  CtxEntry.startTimeKey start :: parent

/-- StartTimeFromContext (src/time_ctx.go): retrieves the start time from the
context; the type assertion yields the zero time (0) when the key was never
set. -/
def StartTimeFromContext : Context → Int
  | [] => 0
  | CtxEntry.startTimeKey t :: _ => t
  | _ :: rest => StartTimeFromContext rest

/-- Whether the start-time carrier was ever set anywhere in the context. -/
def hasStartTime : Context → Bool
  | [] => false
  | CtxEntry.startTimeKey _ :: _ => true
  | _ :: rest => hasStartTime rest

/-- The innermost span entry of a context, with the tracer provider of the
span that was stored there (trace.SpanFromContext plus span.TracerProvider);
none when the context carries no span. -/
def spanEntryFromContext : Context → Option (SpanContext × Nat)
  | [] => none
  | CtxEntry.spanKey sc prov :: _ => some (sc, prov)
  | _ :: rest => spanEntryFromContext rest

/-- trace.SpanContextFromContext: the span context stored in the context, or
the invalid span context when none is stored. -/
def spanContextFromContext (ctx : Context) : SpanContext :=
  match spanEntryFromContext ctx with
  | some (sc, _) => sc
  | none => invalidSpanContext

/-- Modelled from the spec: LabelerFromContext (the Labeler source file is not
under src/).  Reading returns the existing bag and true when one is present in
the context, otherwise a fresh empty bag and false (read-or-create). -/
def labelerFromContext : Context → List KeyValue × Bool
  | [] => ([], false)
  | CtxEntry.labelerKey entries :: _ => (entries, true)
  | _ :: rest => labelerFromContext rest

/-- Modelled from the spec: ContextWithLabeler (source not under src/) injects
the labeler bag into the context. -/
def contextWithLabeler (ctx : Context) (entries : List KeyValue) : Context :=
  CtxEntry.labelerKey entries :: ctx

/-- A tracer: either one supplied to the middleware at construction, or one
built by newTracer (src/util.go) from a tracer provider, identified by an
abstract provider id. -/
inductive Tracer where
  | supplied (id : Nat)
  | ofProvider (provId : Nat)
deriving DecidableEq, Repr

/-- The provider identity behind a tracer (used only to tag the span entry the
started span installs in the downstream context). -/
def tracerProvId : Tracer → Nat
  | Tracer.supplied id => id
  | Tracer.ofProvider p => p

/-- The span start options that appear in serveHTTP (trace.SpanStartOption):
request trace attributes, WithNewRoot, WithLinks, WithTimestamp, and the
WithSpanKind option configured through WithSpanOptions. -/
inductive SpanStartOption where
  | withAttributes (attrs : List KeyValue)
  | withNewRoot
  | withLinks (links : List SpanContext)
  | withTimestamp (t : Int)
  | withSpanKind (k : Nat)
deriving DecidableEq, Repr

/-- An inbound http.Request, reduced to what the middleware consumes: its
context chain and, abstracting the propagator {extract} capability, the span
context its headers carry (none when the headers carry no trace context). -/
structure Request where
  ctx : Context
  extracted : Option SpanContext
deriving DecidableEq, Repr

/-- http.Request.WithContext. -/
def Request.withContext (r : Request) (c : Context) : Request :=
  { r with ctx := c }

/-- The extraction step m.propagators.Extract(r.Context(), HeaderCarrier):
installs the span context carried by the inbound headers, if any, as the
innermost span entry of the request context. -/
def extractContext (r : Request) : Context :=
  match r.extracted with
  | some sc => CtxEntry.spanKey sc 0 :: r.ctx
  | none => r.ctx

/-- The tri-state span status of the external span capability. -/
inductive SpanStatus where
  | error
  | unset
deriving DecidableEq, Repr

/-- Modelled from the spec: semconv.HTTPServer.Status (internal/semconv is not
under src/): status codes greater than or equal to 500 map to the error span
status, all lower codes to unset/ok. -/
def semconvStatus (code : Nat) : SpanStatus :=
  if 500 ≤ code then SpanStatus.error else SpanStatus.unset

/-- Embeds the Go struct handler (src/handler.go).  The propagators field is
abstracted into Request.extracted; the semconv field is split into the Env
below and semconvStatus. -/
structure Handler where
  operation : String
  server : String
  tracer : Option Tracer
  spanStartOptions : List SpanStartOption
  readEvent : Bool
  writeEvent : Bool
  filters : List (Request → Bool)
  spanNameFormatter : String → Request → String
  publicEndpoint : Bool
  publicEndpointFn : Option (Request → Bool)
  metricAttributesFn : Option (Request → List KeyValue)

/-- Per-call environment: the two wall-clock readings the middleware takes
(time.Now at entry and at metric computation), the process-wide default
tracer provider (otel.GetTracerProvider), the span context the tracer gives
the started span, and the external semconv.RequestTraceAttrs function. -/
structure Env where
  entryTime : Int
  metricsTime : Int
  globalProv : Nat
  startedSpanCtx : SpanContext
  requestTraceAttrs : String → Request → List KeyValue

/-- Observable outcome of the downstream runtime.HandlerFunc: either it
raises an unrecovered failure, or it returns normally, having appended
entries to the shared labeler bag and left the wrappers with a final status
code and byte counts. -/
inductive HandlerOutcome where
  | raises
  | normal (appended : List KeyValue) (statusCode : Nat)
      (bytesWritten : Int) (bytesRead : Int)
deriving DecidableEq, Repr

/-- The observable steps of one cycle, in execution order. -/
inductive Event where
  | spanStart
  | bodyWrap
  | writerWrap
  | handlerCall
  | setStatus
  | setAttributes
  | recordMetrics
  | spanEnd
deriving DecidableEq, Repr

/-- The span as started: its name, the tracer used, and the options passed to
tracer.Start. -/
structure StartedSpan where
  name : String
  tracer : Tracer
  opts : List SpanStartOption
deriving DecidableEq, Repr

/-- The semconv.ServerMetricData record handed to RecordMetrics. -/
structure MetricsRecord where
  serverName : String
  responseSize : Int
  requestSize : Int
  elapsedTime : ℚ
  statusCode : Nat
  additionalAttributes : List KeyValue
deriving DecidableEq, Repr

/-- Everything observable about one request cycle through serveHTTP. -/
structure CycleResult where
  events : List Event
  span : Option StartedSpan
  spanStatus : Option SpanStatus
  metrics : Option MetricsRecord
  panicked : Bool
deriving DecidableEq, Repr

/-- defaultHandlerFormatter (src/handler.go): returns the operation name. -/
def defaultHandlerFormatter (operation : String) (_ : Request) : String :=
  operation

/-- The public-endpoint decision of serveHTTP: the static flag, or the
per-request predicate evaluated against the request with the extracted
context (a nil predicate counts as false). -/
def publicDecision (m : Handler) (r : Request) (ctx : Context) : Bool :=
  m.publicEndpoint ||
    (match m.publicEndpointFn with
     | some fn => fn (r.withContext ctx)
     | none => false)

/-- The option list serveHTTP assembles for tracer.Start: the request trace
attributes; on a public endpoint additionally WithNewRoot, plus one link to
the extracted span context when it is valid and remote; and WithTimestamp
when the extracted context carries a non-zero start-time override. -/
def startOptions (env : Env) (m : Handler) (r : Request) (ctx : Context) :
    List SpanStartOption :=
  let opts := [SpanStartOption.withAttributes (env.requestTraceAttrs m.server r)]
  let opts :=
    if publicDecision m r ctx then
      let opts := opts ++ [SpanStartOption.withNewRoot]
      let s := spanContextFromContext ctx
      if s.valid && s.remote then
        opts ++ [SpanStartOption.withLinks [s]]
      else opts
    else opts
  if StartTimeFromContext ctx ≠ 0 then
    opts ++ [SpanStartOption.withTimestamp (StartTimeFromContext ctx)]
  else opts

/-- Tracer selection of serveHTTP (three-tier fallback): the tracer supplied
at construction; otherwise the provider of a valid span already present in
the inbound unmodified request context; otherwise the process-wide default
provider. -/
def selectTracer (env : Env) (m : Handler) (r : Request) : Tracer :=
  match m.tracer with
  | some t => t
  | none =>
    match spanEntryFromContext r.ctx with
    | some (sc, prov) =>
      if sc.valid then Tracer.ofProvider prov
      else Tracer.ofProvider env.globalProv
    | none => Tracer.ofProvider env.globalProv

/-- The reqStartTime of serveHTTP after the override check: the non-zero
start-time override from the extracted context, or the wall clock captured at
middleware entry. -/
def reqStart (env : Env) (ctx : Context) : Int :=
  if StartTimeFromContext ctx ≠ 0 then StartTimeFromContext ctx
  else env.entryTime

/-- The context handed to the downstream handler: the extracted context with
the started span installed by tracer.Start, and a fresh empty labeler bag
injected when none was already present. -/
def downstreamCtx (env : Env) (m : Handler) (r : Request) : Context :=
  let ctx := extractContext r
  let ctx := CtxEntry.spanKey env.startedSpanCtx
    (tracerProvId (selectTracer env m r)) :: ctx
  if (labelerFromContext ctx).2 then ctx else contextWithLabeler ctx []

/-- metricAttributesFromRequest (src/handler.go): the output of the custom
metric-attribute function, or nil when none is configured. -/
def Handler.metricAttributesFromRequest (m : Handler) (r : Request) :
    List KeyValue :=
  match m.metricAttributesFn with
  | some fn => fn r
  | none => []

/-- Embeds serveHTTP (src/handler.go).  The filters gate runs first and a
false filter returns immediately.  The body/response wrappers and the
httpsnoop composition are abstracted into HandlerOutcome: the wrapper
snapshots read after the handler returns (status code, bytes written, bytes
read) and the labeler entries the handler appended.  Only span.End is
deferred in the source, so on an unrecovered handler failure it is the sole
step that still runs; status/attribute finalization and RecordMetrics run
after next only on a normal return, followed by the deferred span end. -/
def serveHTTP (env : Env) (m : Handler) (r : Request)
    (next : Request → HandlerOutcome) : CycleResult :=
  if m.filters.all (fun f => f r) then
    let ctx := extractContext r
    let started : StartedSpan :=
      { name := m.spanNameFormatter m.operation r
        tracer := selectTracer env m r
        opts := startOptions env m r ctx }
    match next (r.withContext (downstreamCtx env m r)) with
    | HandlerOutcome.raises =>
      { events := [Event.spanStart, Event.bodyWrap, Event.writerWrap,
                   Event.handlerCall, Event.spanEnd]
        span := some started
        spanStatus := none
        metrics := none
        panicked := true }
    | HandlerOutcome.normal appended statusCode bytesWritten bytesRead =>
      let labelerEntries := (labelerFromContext (downstreamCtx env m r)).1 ++ appended
      { events := [Event.spanStart, Event.bodyWrap, Event.writerWrap,
                   Event.handlerCall, Event.setStatus, Event.setAttributes,
                   Event.recordMetrics, Event.spanEnd]
        span := some started
        spanStatus := some (semconvStatus statusCode)
        metrics := some
          { serverName := m.server
            responseSize := bytesWritten
            requestSize := bytesRead
            elapsedTime := ((env.metricsTime - reqStart env ctx : Int) : ℚ) / 1000000
            statusCode := statusCode
            additionalAttributes :=
              labelerEntries ++ m.metricAttributesFromRequest r }
        panicked := false }
  else
    { events := [], span := none, spanStatus := none, metrics := none,
      panicked := false }

/-- Whether an option list contains WithNewRoot. -/
def hasNewRoot (opts : List SpanStartOption) : Bool :=
  opts.any fun o =>
    match o with
    | SpanStartOption.withNewRoot => true
    | _ => false

/-- The links carried by an option list, in option order (the external tracer
capability collects WithLinks contributions in order). -/
def optsLinks (opts : List SpanStartOption) : List SpanContext :=
  opts.foldr
    (fun o acc =>
      match o with
      | SpanStartOption.withLinks ls => ls ++ acc
      | _ => acc) []

/-- The parent of a span started with these options in this context, per the
external tracer capability: WithNewRoot forces a root (no parent); otherwise
the valid span context stored in the context, if any, becomes the parent. -/
def spanParent (ctx : Context) (opts : List SpanStartOption) :
    Option SpanContext :=
  if hasNewRoot opts then none
  else if (spanContextFromContext ctx).valid then
    some (spanContextFromContext ctx)
  else none

/-- Embeds the config struct of the options file.  The propagator and meter
plumbing that no claim touches is omitted; nil function fields are none. -/
structure Config where
  serverName : String := ""
  tracerProvider : Option Nat := none
  tracer : Option Tracer := none
  spanStartOptions : List SpanStartOption := []
  publicEndpoint : Bool := false
  publicEndpointFn : Option (Request → Bool) := none
  readEvent : Bool := false
  writeEvent : Bool := false
  filters : List (Request → Bool) := []
  metricAttributesFn : Option (Request → List KeyValue) := none
  spanNameFormatter : String → Request → String := defaultHandlerFormatter

/-- A functional option, Option func(*config). -/
def MwOption : Type :=
  Config → Config

/-- newConfig: applies the options to a fresh config, then builds the tracer
from the supplied tracer provider when one was given. -/
def newConfig (opts : List MwOption) : Config :=
  let c := opts.foldl (fun c o => o c) {}
  match c.tracerProvider with
  | some tp => { c with tracer := some (Tracer.ofProvider tp) }
  | none => c

/-- WithTracerProvider. -/
def WithTracerProvider (tp : Nat) : MwOption :=
  fun c => { c with tracerProvider := some tp }

/-- WithPublicEndpoint. -/
def WithPublicEndpoint : MwOption :=
  fun c => { c with publicEndpoint := true }

/-- WithPublicEndpointFn. -/
def WithPublicEndpointFn (fn : Request → Bool) : MwOption :=
  fun c => { c with publicEndpointFn := some fn }

/-- WithSpanOptions: appends to the configured span start options. -/
def WithSpanOptions (opts : List SpanStartOption) : MwOption :=
  fun c => { c with spanStartOptions := c.spanStartOptions ++ opts }

/-- WithFilter: appends one filter. -/
def WithFilter (f : Request → Bool) : MwOption :=
  fun c => { c with filters := c.filters ++ [f] }

/-- WithSpanNameFormatter. -/
def WithSpanNameFormatter (fn : String → Request → String) : MwOption :=
  fun c => { c with spanNameFormatter := fn }

/-- WithServerName. -/
def WithServerName (server : String) : MwOption :=
  fun c => { c with serverName := server }

/-- WithMetricAttributesFn. -/
def WithMetricAttributesFn (fn : Request → List KeyValue) : MwOption :=
  fun c => { c with metricAttributesFn := some fn }

/-- configure (src/handler.go): copies the config into the handler (the
operation name is set at handler creation in NewMiddleware and threaded
through here). -/
def configure (operation : String) (c : Config) : Handler :=
  { operation := operation
    server := c.serverName
    tracer := c.tracer
    spanStartOptions := c.spanStartOptions
    readEvent := c.readEvent
    writeEvent := c.writeEvent
    filters := c.filters
    spanNameFormatter := c.spanNameFormatter
    publicEndpoint := c.publicEndpoint
    publicEndpointFn := c.publicEndpointFn
    metricAttributesFn := c.metricAttributesFn }

/-- trace.SpanKindServer. -/
def spanKindServer : Nat := 2

/-- NewMiddleware (src/handler.go): builds the handler from the default
options (server span kind, default name formatter) followed by the caller's
options. -/
def NewMiddleware (operation : String) (opts : List MwOption) : Handler :=
  configure operation (newConfig
    ([WithSpanOptions [SpanStartOption.withSpanKind spanKindServer],
      WithSpanNameFormatter defaultHandlerFormatter] ++ opts))

/-- Sample environment used by the concrete witnesses. -/
def env0 : Env :=
  { entryTime := 3
    metricsTime := 10
    globalProv := 7
    startedSpanCtx := { valid := true, remote := false, traceId := 99 }
    requestTraceAttrs := fun _ _ => [{ key := "http.method", value := "GET" }] }

/-- Sample handler with only the default options. -/
def m0 : Handler := NewMiddleware "op" []

/-- Sample request with an empty context and no trace context in its headers. -/
def r0 : Request := { ctx := [], extracted := none }

/-- Sample downstream handler returning normally with status 404. -/
def next0 : Request → HandlerOutcome :=
  fun _ => HandlerOutcome.normal [] 404 11 5

/-- Sample downstream handler that raises an unrecovered failure. -/
def nextRaise : Request → HandlerOutcome :=
  fun _ => HandlerOutcome.raises

/-- A filter rejecting every request. -/
def filtFalse : Request → Bool := fun _ => false

/-- Sample handler with one always-false filter. -/
def mFilt : Handler := NewMiddleware "op" [WithFilter filtFalse]

/-- Sample handler configured as a public endpoint. -/
def mPub : Handler := NewMiddleware "op" [WithPublicEndpoint]

/-- Sample handler with a construction-supplied tracer provider. -/
def mTr : Handler := NewMiddleware "op" [WithTracerProvider 42]

/-- Sample valid remote span context carried by inbound headers. -/
def scR : SpanContext := { valid := true, remote := true, traceId := 5 }

/-- Sample request whose headers carry the valid remote trace context scR. -/
def rPub : Request := { ctx := [], extracted := some scR }

/-- Sample request whose context carries a start-time override of 5. -/
def rT : Request := { ctx := ContextWithStartTime [] 5, extracted := none }

/-- Two attributes sharing a key, to exercise no-deduplication. -/
def kv1 : KeyValue := { key := "a", value := "1" }

/-- Second attribute with the same key as kv1. -/
def kv2 : KeyValue := { key := "a", value := "2" }

/-- Sample handler with a custom metric-attribute function returning kv2. -/
def mAttr : Handler := NewMiddleware "op" [WithMetricAttributesFn (fun _ => [kv2])]

/-- Sample downstream handler appending kv1 to the labeler bag. -/
def nextLab : Request → HandlerOutcome :=
  fun _ => HandlerOutcome.normal [kv1] 200 3 4

/-- The metrics record produced by running m0 on rT with next0 under env0,
its elapsed time written as serveHTTP computes it. -/
def mrT : MetricsRecord :=
  { serverName := ""
    responseSize := 11
    requestSize := 5
    elapsedTime := ((env0.metricsTime - reqStart env0 (extractContext rT) : Int) : ℚ) / 1000000
    statusCode := 404
    additionalAttributes := [] }

/-- The metrics record produced by running m0 on r0 with next0 under env0,
its elapsed time written as serveHTTP computes it. -/
def mr404 : MetricsRecord :=
  { serverName := ""
    responseSize := 11
    requestSize := 5
    elapsedTime := ((env0.metricsTime - reqStart env0 (extractContext r0) : Int) : ℚ) / 1000000
    statusCode := 404
    additionalAttributes := [] }

/-- Shape of a filtered cycle: serveHTTP returns with no span, no events, no
metrics. -/
theorem serveHTTP_filtered_eq (env : Env) (m : Handler) (r : Request)
    (next : Request → HandlerOutcome)
    (hf : m.filters.all (fun f => f r) = false) :
    serveHTTP env m r next =
      { events := [], span := none, spanStatus := none, metrics := none,
        panicked := false } := by
  simp [serveHTTP, hf]

/-- Shape of a non-filtered cycle whose handler raises: only the deferred span
end runs after the handler step. -/
theorem serveHTTP_raise_eq (env : Env) (m : Handler) (r : Request)
    (next : Request → HandlerOutcome)
    (hf : m.filters.all (fun f => f r) = true)
    (hn : next (r.withContext (downstreamCtx env m r)) = HandlerOutcome.raises) :
    serveHTTP env m r next =
      { events := [Event.spanStart, Event.bodyWrap, Event.writerWrap,
                   Event.handlerCall, Event.spanEnd]
        span := some
          { name := m.spanNameFormatter m.operation r
            tracer := selectTracer env m r
            opts := startOptions env m r (extractContext r) }
        spanStatus := none
        metrics := none
        panicked := true } := by
  simp [serveHTTP, hf, hn]

/-- Shape of a non-filtered cycle whose handler returns normally. -/
theorem serveHTTP_normal_eq (env : Env) (m : Handler) (r : Request)
    (next : Request → HandlerOutcome) (appended : List KeyValue)
    (code : Nat) (bw br : Int)
    (hf : m.filters.all (fun f => f r) = true)
    (hn : next (r.withContext (downstreamCtx env m r)) =
      HandlerOutcome.normal appended code bw br) :
    serveHTTP env m r next =
      { events := [Event.spanStart, Event.bodyWrap, Event.writerWrap,
                   Event.handlerCall, Event.setStatus, Event.setAttributes,
                   Event.recordMetrics, Event.spanEnd]
        span := some
          { name := m.spanNameFormatter m.operation r
            tracer := selectTracer env m r
            opts := startOptions env m r (extractContext r) }
        spanStatus := some (semconvStatus code)
        metrics := some
          { serverName := m.server
            responseSize := bw
            requestSize := br
            elapsedTime :=
              ((env.metricsTime - reqStart env (extractContext r) : Int) : ℚ) / 1000000
            statusCode := code
            additionalAttributes :=
              ((labelerFromContext (downstreamCtx env m r)).1 ++ appended) ++
                m.metricAttributesFromRequest r }
        panicked := false } := by
  simp [serveHTTP, hf, hn]

/-- Event trace of a non-filtered cycle whose handler raises. -/
theorem serveHTTP_raise_events (env : Env) (m : Handler) (r : Request)
    (next : Request → HandlerOutcome)
    (hf : m.filters.all (fun f => f r) = true)
    (hn : next (r.withContext (downstreamCtx env m r)) = HandlerOutcome.raises) :
    (serveHTTP env m r next).events =
      [Event.spanStart, Event.bodyWrap, Event.writerWrap, Event.handlerCall,
       Event.spanEnd] := by
  rw [serveHTTP_raise_eq env m r next hf hn]

/-- Event trace of a non-filtered cycle whose handler returns normally. -/
theorem serveHTTP_normal_events (env : Env) (m : Handler) (r : Request)
    (next : Request → HandlerOutcome) (appended : List KeyValue)
    (code : Nat) (bw br : Int)
    (hf : m.filters.all (fun f => f r) = true)
    (hn : next (r.withContext (downstreamCtx env m r)) =
      HandlerOutcome.normal appended code bw br) :
    (serveHTTP env m r next).events =
      [Event.spanStart, Event.bodyWrap, Event.writerWrap, Event.handlerCall,
       Event.setStatus, Event.setAttributes, Event.recordMetrics,
       Event.spanEnd] := by
  rw [serveHTTP_normal_eq env m r next appended code bw br hf hn]

/-- The span started by any non-filtered cycle, whatever the handler does. -/
theorem serveHTTP_span_eq (env : Env) (m : Handler) (r : Request)
    (next : Request → HandlerOutcome)
    (hf : m.filters.all (fun f => f r) = true) :
    (serveHTTP env m r next).span =
      some
        { name := m.spanNameFormatter m.operation r
          tracer := selectTracer env m r
          opts := startOptions env m r (extractContext r) } := by
  cases hn : next (r.withContext (downstreamCtx env m r)) with
  | raises => rw [serveHTTP_raise_eq env m r next hf hn]
  | normal a c bw br => rw [serveHTTP_normal_eq env m r next a c bw br hf hn]

/-- Claim C9: StartTimeFromContext over ContextWithStartTime reads back the
written start time; a second write over the same chain silently wins (last
write wins); and reading a context in which the carrier was never set yields
the zero time value. -/
theorem C9_start_time_carrier (ctx : Context) (T Tnew : Int)
    (h : hasStartTime ctx = false) :
    StartTimeFromContext (ContextWithStartTime ctx T) = T ∧
    StartTimeFromContext
      (ContextWithStartTime (ContextWithStartTime ctx T) Tnew) = Tnew ∧
    StartTimeFromContext ctx = 0 := by
  refine ⟨rfl, rfl, ?_⟩
  induction ctx with
  | nil => rfl
  | cons e rest ih =>
    cases e with
    | startTimeKey t => simp [hasStartTime] at h
    | spanKey sc p =>
      simp only [hasStartTime] at h
      simpa [StartTimeFromContext] using ih h
    | labelerKey es =>
      simp only [hasStartTime] at h
      simpa [StartTimeFromContext] using ih h
    | otherKey k v =>
      simp only [hasStartTime] at h
      simpa [StartTimeFromContext] using ih h

/-- Witness for C9 on a concrete context that never set the carrier. -/
theorem C9_start_time_carrier_witness :
    hasStartTime [CtxEntry.otherKey 1 2] = false ∧
    (StartTimeFromContext (ContextWithStartTime [CtxEntry.otherKey 1 2] 7) = 7 ∧
     StartTimeFromContext
       (ContextWithStartTime (ContextWithStartTime [CtxEntry.otherKey 1 2] 7) 9) = 9 ∧
     StartTimeFromContext [CtxEntry.otherKey 1 2] = 0) :=
  ⟨by decide, C9_start_time_carrier [CtxEntry.otherKey 1 2] 7 9 (by decide)⟩

/-- Claim C8: the status mapping sends every code at or above 500 to the error
span status and every lower code to unset/ok, in particular 503 to error and
404 to unset/ok, and the span status set at finalization is exactly this
mapping applied to the cycle's final status code. -/
theorem C8_status_mapping (c : Nat) (env : Env) (m : Handler) (r : Request)
    (next : Request → HandlerOutcome) (mr : MetricsRecord)
    (h : (serveHTTP env m r next).metrics = some mr) :
    (semconvStatus c = SpanStatus.error ↔ 500 ≤ c) ∧
    (semconvStatus c = SpanStatus.unset ↔ c < 500) ∧
    semconvStatus 503 = SpanStatus.error ∧
    semconvStatus 404 = SpanStatus.unset ∧
    (serveHTTP env m r next).spanStatus = some (semconvStatus mr.statusCode) := by
  refine ⟨?_, ?_, by decide, by decide, ?_⟩
  · by_cases hc : 500 ≤ c
    · simp [semconvStatus, hc]
    · simp [semconvStatus, hc]
  · by_cases hc : 500 ≤ c
    · simp [semconvStatus, hc]
    · simp [semconvStatus, hc]
      omega
  · by_cases hf : m.filters.all (fun f => f r) = true
    · cases hn : next (r.withContext (downstreamCtx env m r)) with
      | raises =>
        rw [serveHTTP_raise_eq env m r next hf hn] at h
        simp at h
      | normal a code bw br =>
        rw [serveHTTP_normal_eq env m r next a code bw br hf hn] at h ⊢
        simp only [Option.some.injEq] at h
        subst h
        rfl
    · rw [serveHTTP_filtered_eq env m r next (by simpa using hf)] at h
      simp at h

/-- Witness for C8 at a concrete non-filtered cycle ending with status 404. -/
theorem C8_status_mapping_witness :
    (serveHTTP env0 m0 r0 next0).metrics = some mr404 ∧
    ((semconvStatus 503 = SpanStatus.error ↔ 500 ≤ 503) ∧
     (semconvStatus 503 = SpanStatus.unset ↔ 503 < 500) ∧
     semconvStatus 503 = SpanStatus.error ∧
     semconvStatus 404 = SpanStatus.unset ∧
     (serveHTTP env0 m0 r0 next0).spanStatus =
       some (semconvStatus mr404.statusCode)) :=
  ⟨rfl, C8_status_mapping 503 env0 m0 r0 next0 mr404 rfl⟩

/-- Claim C1 as stated is false on the code: with no filters and a handler
that raises, the cycle ends panicked with no metrics record and no
metrics-emission step in its event trace, even though the deferred span end
still ran. -/
theorem C1_counterexample :
    (serveHTTP env0 m0 r0 nextRaise).panicked = true ∧
    (serveHTTP env0 m0 r0 nextRaise).metrics = none ∧
    Event.recordMetrics ∉ (serveHTTP env0 m0 r0 nextRaise).events ∧
    Event.spanEnd ∈ (serveHTTP env0 m0 r0 nextRaise).events := by
  decide

/-- Claim C1 amended: on a non-filtered cycle whose handler raises an
unrecovered failure, only the deferred span end still runs; the metrics
emission step is skipped and the cycle's measurement is dropped.  Metrics are
emitted exactly when the handler returns normally. -/
theorem C1_metrics_on_handler_failure (env : Env) (m : Handler) (r : Request)
    (next : Request → HandlerOutcome)
    (hf : m.filters.all (fun f => f r) = true) :
    ((serveHTTP env m r next).panicked = true →
      (serveHTTP env m r next).metrics = none ∧
      Event.recordMetrics ∉ (serveHTTP env m r next).events ∧
      Event.spanEnd ∈ (serveHTTP env m r next).events) ∧
    ((serveHTTP env m r next).panicked = false →
      (serveHTTP env m r next).metrics ≠ none ∧
      Event.recordMetrics ∈ (serveHTTP env m r next).events) := by
  cases hn : next (r.withContext (downstreamCtx env m r)) with
  | raises =>
    have he := serveHTTP_raise_events env m r next hf hn
    have hm : (serveHTTP env m r next).metrics = none := by
      rw [serveHTTP_raise_eq env m r next hf hn]
    have hp : (serveHTTP env m r next).panicked = true := by
      rw [serveHTTP_raise_eq env m r next hf hn]
    constructor
    · intro _
      refine ⟨hm, ?_, ?_⟩
      · rw [he]
        decide
      · rw [he]
        decide
    · intro hcontra
      rw [hp] at hcontra
      exact absurd hcontra (by decide)
  | normal a code bw br =>
    have he := serveHTTP_normal_events env m r next a code bw br hf hn
    have hp : (serveHTTP env m r next).panicked = false := by
      rw [serveHTTP_normal_eq env m r next a code bw br hf hn]
    have hm : (serveHTTP env m r next).metrics ≠ none := by
      rw [serveHTTP_normal_eq env m r next a code bw br hf hn]
      simp
    constructor
    · intro hcontra
      rw [hp] at hcontra
      exact absurd hcontra (by decide)
    · intro _
      refine ⟨hm, ?_⟩
      rw [he]
      decide

/-- Witness for the amended C1 on a concrete raising handler. -/
theorem C1_metrics_on_handler_failure_witness :
    m0.filters.all (fun f => f r0) = true ∧
    ((serveHTTP env0 m0 r0 nextRaise).metrics = none ∧
     Event.recordMetrics ∉ (serveHTTP env0 m0 r0 nextRaise).events ∧
     Event.spanEnd ∈ (serveHTTP env0 m0 r0 nextRaise).events) :=
  ⟨by decide,
   (C1_metrics_on_handler_failure env0 m0 r0 nextRaise (by decide)).1 (by decide)⟩

/-- Claim C2: every cycle accepted by all filters creates exactly one span and
ends exactly one span, the ending happening even when the handler raises;
every filtered cycle creates zero spans. -/
theorem C2_span_exactly_once (env : Env) (m : Handler) (r : Request)
    (next : Request → HandlerOutcome) :
    (m.filters.all (fun f => f r) = true →
      (serveHTTP env m r next).events.count Event.spanStart = 1 ∧
      (serveHTTP env m r next).events.count Event.spanEnd = 1) ∧
    (m.filters.all (fun f => f r) = false →
      (serveHTTP env m r next).events.count Event.spanStart = 0 ∧
      (serveHTTP env m r next).span = none) := by
  constructor
  · intro hf
    cases hn : next (r.withContext (downstreamCtx env m r)) with
    | raises =>
      rw [serveHTTP_raise_events env m r next hf hn]
      exact ⟨by decide, by decide⟩
    | normal a code bw br =>
      rw [serveHTTP_normal_events env m r next a code bw br hf hn]
      exact ⟨by decide, by decide⟩
  · intro hf
    have h := serveHTTP_filtered_eq env m r next hf
    constructor
    · rw [h]
      decide
    · rw [h]

/-- Witness for C2, covering a raising handler on a non-filtered cycle and a
filtered cycle. -/
theorem C2_span_exactly_once_witness :
    ((serveHTTP env0 m0 r0 nextRaise).events.count Event.spanStart = 1 ∧
     (serveHTTP env0 m0 r0 nextRaise).events.count Event.spanEnd = 1) ∧
    ((serveHTTP env0 mFilt r0 next0).events.count Event.spanStart = 0 ∧
     (serveHTTP env0 mFilt r0 next0).span = none) :=
  ⟨(C2_span_exactly_once env0 m0 r0 nextRaise).1 (by decide),
   (C2_span_exactly_once env0 mFilt r0 next0).2 (by decide)⟩

/-- Claim C3: when some registered filter rejects the request, the middleware
returns immediately: the cycle has no span, no events (no wrapping, no
handler call, no metric emission, no write), and no metrics record. -/
theorem C3_filter_short_circuit (env : Env) (m : Handler) (r : Request)
    (next : Request → HandlerOutcome)
    (h : ∃ f ∈ m.filters, f r = false) :
    serveHTTP env m r next =
      { events := [], span := none, spanStatus := none, metrics := none,
        panicked := false } := by
  have hf : m.filters.all (fun f => f r) = false := by
    rcases h with ⟨f, hmem, hfr⟩
    cases hb : m.filters.all (fun f => f r) with
    | false => rfl
    | true =>
      have := (List.all_eq_true.mp hb) f hmem
      rw [hfr] at this
      exact absurd this (by decide)
  exact serveHTTP_filtered_eq env m r next hf

/-- Witness for C3 with a concrete always-false filter. -/
theorem C3_filter_short_circuit_witness :
    (∃ f ∈ mFilt.filters, f r0 = false) ∧
    serveHTTP env0 mFilt r0 next0 =
      { events := [], span := none, spanStatus := none, metrics := none,
        panicked := false } :=
  ⟨⟨filtFalse, List.mem_singleton.mpr rfl, rfl⟩,
   C3_filter_short_circuit env0 mFilt r0 next0
     ⟨filtFalse, List.mem_singleton.mpr rfl, rfl⟩⟩

/-- Start options assembled under a public-endpoint decision with a valid
remote extracted span context: the span is a new root carrying exactly the one
link to that context. -/
theorem startOptions_public_shape (env : Env) (m : Handler) (r : Request)
    (ctx : Context) (hp : publicDecision m r ctx = true)
    (hv : (spanContextFromContext ctx).valid = true)
    (hr : (spanContextFromContext ctx).remote = true) :
    spanParent ctx (startOptions env m r ctx) = none ∧
    optsLinks (startOptions env m r ctx) = [spanContextFromContext ctx] := by
  simp only [startOptions, hp, hv, hr, Bool.and_self, if_true]
  split_ifs <;> constructor <;> simp [spanParent, hasNewRoot, optsLinks]

/-- Start options assembled under a non-public decision with a valid extracted
span context: the span is a child of that context with zero links. -/
theorem startOptions_nonpublic_shape (env : Env) (m : Handler) (r : Request)
    (ctx : Context) (hp : publicDecision m r ctx = false)
    (hv : (spanContextFromContext ctx).valid = true) :
    spanParent ctx (startOptions env m r ctx) = some (spanContextFromContext ctx) ∧
    optsLinks (startOptions env m r ctx) = [] := by
  simp only [startOptions, hp, Bool.false_eq_true, if_false]
  split_ifs <;> constructor <;> simp [spanParent, hasNewRoot, optsLinks, hv]

/-- A non-zero start-time override always contributes WithTimestamp. -/
theorem startOptions_timestamp_mem (env : Env) (m : Handler) (r : Request)
    (ctx : Context) (h : StartTimeFromContext ctx ≠ 0) :
    SpanStartOption.withTimestamp (StartTimeFromContext ctx) ∈
      startOptions env m r ctx := by
  simp only [startOptions]
  rw [if_pos h]
  simp

/-- Without a start-time override, no WithTimestamp option is ever passed. -/
theorem startOptions_no_timestamp (env : Env) (m : Handler) (r : Request)
    (ctx : Context) (h : StartTimeFromContext ctx = 0) (t : Int) :
    SpanStartOption.withTimestamp t ∉ startOptions env m r ctx := by
  simp only [startOptions]
  rw [if_neg (fun hh => hh h)]
  split_ifs <;> simp

/-- No WithSpanKind option is ever among the options passed to Start. -/
theorem startOptions_no_spanKind (env : Env) (m : Handler) (r : Request)
    (ctx : Context) (k : Nat) :
    SpanStartOption.withSpanKind k ∉ startOptions env m r ctx := by
  simp only [startOptions]
  split_ifs <;> simp

/-- The elapsed time of any emitted metrics record is the wall clock at metric
computation minus reqStart. -/
theorem serveHTTP_elapsed (env : Env) (m : Handler) (r : Request)
    (next : Request → HandlerOutcome) (mr : MetricsRecord)
    (hf : m.filters.all (fun f => f r) = true)
    (hm : (serveHTTP env m r next).metrics = some mr) :
    mr.elapsedTime =
      ((env.metricsTime - reqStart env (extractContext r) : Int) : ℚ) / 1000000 := by
  cases hn : next (r.withContext (downstreamCtx env m r)) with
  | raises =>
    rw [serveHTTP_raise_eq env m r next hf hn] at hm
    simp at hm
  | normal a code bw br =>
    rw [serveHTTP_normal_eq env m r next a code bw br hf hn] at hm
    simp only [Option.some.injEq] at hm
    subst hm
    rfl

/-- Claim C4: under a public-endpoint configuration (static flag true, or the
per-request predicate true on the request with extracted context), a request
whose headers carry a valid remote trace context yields a span started as a
new root with exactly one link to that context; under a non-public
configuration the span is a child of that context with zero links. -/
theorem C4_public_endpoint_links (env : Env) (m : Handler) (r : Request)
    (next : Request → HandlerOutcome) (sc : SpanContext)
    (hf : m.filters.all (fun f => f r) = true)
    (hx : r.extracted = some sc) (hv : sc.valid = true) (hr : sc.remote = true) :
    ((serveHTTP env m r next).span.map fun st =>
        (spanParent (extractContext r) st.opts, optsLinks st.opts)) =
      some (if publicDecision m r (extractContext r) then
              ((none : Option SpanContext), [sc])
            else (some sc, ([] : List SpanContext))) := by
  have hctx : spanContextFromContext (extractContext r) = sc := by
    simp [extractContext, hx, spanContextFromContext, spanEntryFromContext]
  rw [serveHTTP_span_eq env m r next hf]
  cases hp : publicDecision m r (extractContext r) with
  | true =>
    have h := startOptions_public_shape env m r (extractContext r) hp
      (by rw [hctx]; exact hv) (by rw [hctx]; exact hr)
    rw [hctx] at h
    simp [hp, h.1, h.2]
  | false =>
    have h := startOptions_nonpublic_shape env m r (extractContext r) hp
      (by rw [hctx]; exact hv)
    rw [hctx] at h
    simp [hp, h.1, h.2]

/-- Witness for C4 on a concrete public-endpoint handler and a request whose
headers carry the valid remote context scR. -/
theorem C4_public_endpoint_links_witness :
    mPub.filters.all (fun f => f rPub) = true ∧
    rPub.extracted = some scR ∧
    ((serveHTTP env0 mPub rPub next0).span.map fun st =>
        (spanParent (extractContext rPub) st.opts, optsLinks st.opts)) =
      some (if publicDecision mPub rPub (extractContext rPub) then
              ((none : Option SpanContext), [scR])
            else (some scR, ([] : List SpanContext))) :=
  ⟨by decide, rfl,
   C4_public_endpoint_links env0 mPub rPub next0 scR (by decide) rfl rfl rfl⟩

/-- Claim C5: the tracer that starts the span is chosen by the three-tier
fallback, in order: the construction-supplied tracer; else one built from the
provider of a valid span already in the inbound unmodified request context;
else one built from the process-wide default provider. -/
theorem C5_tracer_fallback (env : Env) (m : Handler) (r : Request)
    (next : Request → HandlerOutcome)
    (hf : m.filters.all (fun f => f r) = true) :
    ((serveHTTP env m r next).span.map fun st => st.tracer) =
      some (match m.tracer with
            | some t => t
            | none =>
              match spanEntryFromContext r.ctx with
              | some (sc, prov) =>
                if sc.valid then Tracer.ofProvider prov
                else Tracer.ofProvider env.globalProv
              | none => Tracer.ofProvider env.globalProv) := by
  rw [serveHTTP_span_eq env m r next hf]
  rfl

/-- Witness for C5 on a handler with a construction-supplied tracer provider. -/
theorem C5_tracer_fallback_witness :
    mTr.filters.all (fun f => f r0) = true ∧
    ((serveHTTP env0 mTr r0 next0).span.map fun st => st.tracer) =
      some (match mTr.tracer with
            | some t => t
            | none =>
              match spanEntryFromContext r0.ctx with
              | some (sc, prov) =>
                if sc.valid then Tracer.ofProvider prov
                else Tracer.ofProvider env0.globalProv
              | none => Tracer.ofProvider env0.globalProv) :=
  ⟨by decide, C5_tracer_fallback env0 mTr r0 next0 (by decide)⟩

/-- Claim C6: a non-zero start-time override T in the extracted context makes
the span start with declared timestamp T and makes the emitted elapsed time
equal metric-time minus T; without an override no timestamp option is passed
and the timer origin is the wall clock captured at middleware entry. -/
theorem C6_start_time_override (env : Env) (m : Handler) (r : Request)
    (next : Request → HandlerOutcome)
    (hf : m.filters.all (fun f => f r) = true) :
    (StartTimeFromContext (extractContext r) ≠ 0 →
      (∀ st, (serveHTTP env m r next).span = some st →
        SpanStartOption.withTimestamp (StartTimeFromContext (extractContext r)) ∈
          st.opts) ∧
      (∀ mr, (serveHTTP env m r next).metrics = some mr →
        mr.elapsedTime =
          ((env.metricsTime - StartTimeFromContext (extractContext r) : Int) : ℚ) /
            1000000)) ∧
    (StartTimeFromContext (extractContext r) = 0 →
      (∀ st, (serveHTTP env m r next).span = some st →
        ∀ t : Int, SpanStartOption.withTimestamp t ∉ st.opts) ∧
      (∀ mr, (serveHTTP env m r next).metrics = some mr →
        mr.elapsedTime =
          ((env.metricsTime - env.entryTime : Int) : ℚ) / 1000000)) := by
  constructor
  · intro hT
    constructor
    · intro st hst
      rw [serveHTTP_span_eq env m r next hf] at hst
      simp only [Option.some.injEq] at hst
      subst hst
      exact startOptions_timestamp_mem env m r (extractContext r) hT
    · intro mr hm
      rw [serveHTTP_elapsed env m r next mr hf hm]
      simp only [reqStart]
      rw [if_pos hT]
  · intro hT
    constructor
    · intro st hst t
      rw [serveHTTP_span_eq env m r next hf] at hst
      simp only [Option.some.injEq] at hst
      subst hst
      exact startOptions_no_timestamp env m r (extractContext r) hT t
    · intro mr hm
      rw [serveHTTP_elapsed env m r next mr hf hm]
      simp only [reqStart]
      rw [if_neg (fun hh => hh hT)]

/-- Witness for C6 on a request carrying a start-time override of 5. -/
theorem C6_start_time_override_witness :
    m0.filters.all (fun f => f rT) = true ∧
    StartTimeFromContext (extractContext rT) ≠ 0 ∧
    mrT.elapsedTime =
      ((env0.metricsTime - StartTimeFromContext (extractContext rT) : Int) : ℚ) /
        1000000 :=
  ⟨by decide, by decide,
   ((C6_start_time_override env0 m0 rT next0 (by decide)).1 (by decide)).2 mrT rfl⟩

/-- Claim C7: the additional metric attributes emitted for a non-filtered
cycle are the labeler-bag entries in append order followed by the custom
metric-attribute-function output, concatenated with no deduplication. -/
theorem C7_metric_attribute_concat (env : Env) (m : Handler) (r : Request)
    (next : Request → HandlerOutcome) (appended : List KeyValue)
    (code : Nat) (bw br : Int)
    (hf : m.filters.all (fun f => f r) = true)
    (hn : next (r.withContext (downstreamCtx env m r)) =
      HandlerOutcome.normal appended code bw br) :
    ((serveHTTP env m r next).metrics.map fun mr => mr.additionalAttributes) =
      some (((labelerFromContext (downstreamCtx env m r)).1 ++ appended) ++
        m.metricAttributesFromRequest r) := by
  rw [serveHTTP_normal_eq env m r next appended code bw br hf hn]
  rfl

/-- Witness for C7: the handler appends kv1 and the custom function returns
kv2 with the same key; both survive, in order. -/
theorem C7_metric_attribute_concat_witness :
    mAttr.filters.all (fun f => f r0) = true ∧
    ((serveHTTP env0 mAttr r0 nextLab).metrics.map fun mr =>
        mr.additionalAttributes) =
      some (((labelerFromContext (downstreamCtx env0 mAttr r0)).1 ++ [kv1]) ++
        mAttr.metricAttributesFromRequest r0) :=
  ⟨by decide,
   C7_metric_attribute_concat env0 mAttr r0 nextLab [kv1] 200 3 4
     (by decide) (by decide)⟩

/-- Claim C10: options configured through WithSpanOptions (including the
default server span-kind option) are stored in the handler's spanStartOptions
field but never passed to Start: the whole cycle result is independent of
that field, and the started span's options are exactly the assembled
attribute/new-root/link/timestamp options, never a span-kind option. -/
theorem C10_spanStartOptions_not_passed (env : Env) (m : Handler) (r : Request)
    (next : Request → HandlerOutcome) (op : String)
    (userOpts sso : List SpanStartOption)
    (hf : m.filters.all (fun f => f r) = true) :
    serveHTTP env { m with spanStartOptions := sso } r next =
      serveHTTP env m r next ∧
    (NewMiddleware op [WithSpanOptions userOpts]).spanStartOptions =
      SpanStartOption.withSpanKind spanKindServer :: userOpts ∧
    ((serveHTTP env m r next).span.map fun st => st.opts) =
      some (startOptions env m r (extractContext r)) ∧
    (∀ st, (serveHTTP env m r next).span = some st →
      ∀ k : Nat, SpanStartOption.withSpanKind k ∉ st.opts) := by
  refine ⟨?_, rfl, ?_, ?_⟩
  · cases m
    rfl
  · rw [serveHTTP_span_eq env m r next hf]
    rfl
  · intro st hst k
    rw [serveHTTP_span_eq env m r next hf] at hst
    simp only [Option.some.injEq] at hst
    subst hst
    exact startOptions_no_spanKind env m r (extractContext r) k

/-- Witness for C10: replacing the stored span start options changes nothing
in the cycle result. -/
theorem C10_spanStartOptions_not_passed_witness :
    m0.filters.all (fun f => f r0) = true ∧
    serveHTTP env0 { m0 with spanStartOptions := [SpanStartOption.withSpanKind 9] }
      r0 next0 = serveHTTP env0 m0 r0 next0 :=
  ⟨by decide,
   (C10_spanStartOptions_not_passed env0 m0 r0 next0 "op" []
     [SpanStartOption.withSpanKind 9] (by decide)).1⟩

end Otelgrpcgw
